import Mathlib

/-!
thread_pipe: the `Pipe<DATA>` bounded blocking queue (`pipe.hpp`)

A shallow embedding of `Pipe<DATA>`.  Every member function of the class takes
`mMtx` on entry and keeps it until it returns or until it suspends in a
condition-variable wait, so each call is modelled as one atomic transition on
the three data members the mutex protects.

* `std::deque<DATA> mDataList` is a `List DATA`, front of the deque first.
* `size_t mCapacity` is a `Nat`; it is only ever compared, never computed with,
  so no wrap-around can occur.
* `cv.wait(lock, pred)` is `while (!pred()) cv.wait(lock);`: when the predicate
  is false the calling thread suspends, which the outcome of the call records
  (together with the state at the suspension point); when it is true the call
  goes on with the lock held.
* A call that suspended and is woken later re-evaluates its wait predicate in the
  state it wakes up in and goes on from there; for `Push` that is the whole call, for
  `Pop` it is `PopFromWait`, which `PopFromWait_eq_Pop` shows to be the whole call too.
  A completed call is therefore one transition taken in the state where it completes,
  which is how `stepOp` and `runOps` order the calls of a run.
* `notify_one` and `notify_all` write none of the data members, so they do not show
  in `Pipe`; `PopWaiters` adds the readers that are inside `mPopCv.wait`, and
  `runEvents` interleaves the calls of all threads with the wake-ups of those readers.
* Allocation failure in `emplace_back` is outside the model.
-/

namespace ThreadPipe

/-- The data members of `Pipe<DATA>` that `mMtx` protects. -/
structure Pipe (DATA : Type) where
  /-- Field `std::deque<DATA> mDataList`, front element first. -/
  mDataList : List DATA
  /-- Field `size_t mCapacity`. -/
  mCapacity : Nat
  /-- Field `bool mHasMore`. -/
  mHasMore : Bool
  deriving DecidableEq, Repr

/-- Constructor `Pipe(size_t capacity = 0) : mCapacity(capacity)` with the default
member initialisers: an empty `mDataList` and `mHasMore = true`. -/
def Pipe.ctor {DATA : Type} (capacity : Nat) : Pipe DATA :=
  { mDataList := [], mCapacity := capacity, mHasMore := true }

/-- How a `Push` call leaves the caller: suspended in `mPushCv.wait`, or returned. -/
inductive PushStatus where
  | suspended
  | returned
  deriving DecidableEq, Repr

/-- Outcome of a `Push` call: its status and the pipe at that point. -/
structure PushOutcome (DATA : Type) where
  status : PushStatus
  pipe : Pipe DATA
  deriving DecidableEq, Repr

/-- How a `Pop` call leaves the caller: suspended in `mPopCv.wait`, returned with a
`bool`, or having called `front()` on an empty deque (undefined behaviour in C++). -/
inductive PopStatus where
  | suspended
  | returned (result : Bool)
  | undefined
  deriving DecidableEq, Repr

/-- Outcome of a `Pop(data)` call: its status, the caller's `data` variable and the
pipe at that point. -/
structure PopOutcome (DATA : Type) where
  status : PopStatus
  data : DATA
  pipe : Pipe DATA
  deriving DecidableEq, Repr

/-- Wait predicate of `mPushCv.wait` in both `Push` overloads:
`mCapacity == 0 || mDataList.size() < mCapacity`. -/
def Pipe.pushPred {DATA : Type} (p : Pipe DATA) : Bool :=
  p.mCapacity == 0 || decide (p.mDataList.length < p.mCapacity)

/-- Overload `Pipe<DATA>::Push(const DATA& data)`: wait for the predicate, then
`mDataList.emplace_back(data)`. -/
def Pipe.Push {DATA : Type} (p : Pipe DATA) (data : DATA) : PushOutcome DATA :=
  if p.pushPred then
    { status := .returned, pipe := { p with mDataList := p.mDataList ++ [data] } }
  else
    { status := .suspended, pipe := p }

/-- Overload `Pipe<DATA>::Push(DATA&& data)`: wait for the predicate, then
`mDataList.emplace_back(std::move(data))`. -/
def Pipe.PushMove {DATA : Type} (p : Pipe DATA) (data : DATA) : PushOutcome DATA :=
  if p.pushPred then
    { status := .returned, pipe := { p with mDataList := p.mDataList ++ [data] } }
  else
    { status := .suspended, pipe := p }

/-- Wait predicate of `mPopCv.wait` in `Pop`: `!mDataList.empty() || !mHasMore`. -/
def Pipe.popPred {DATA : Type} (p : Pipe DATA) : Bool :=
  !p.mDataList.isEmpty || !p.mHasMore

/-- The part of `Pop` after `mPopCv.wait` has let the caller through: the second
`if(mDataList.empty() && !mHasMore) return false;`, then
`data = std::move(mDataList.front()); mDataList.pop_front(); return true;`. -/
def Pipe.PopAfterWait {DATA : Type} (p : Pipe DATA) (data : DATA) : PopOutcome DATA :=
  if p.mDataList.isEmpty && !p.mHasMore then
    { status := .returned false, data := data, pipe := p }
  else
    match p.mDataList with
    | [] => { status := .undefined, data := data, pipe := p }
    | front :: rest =>
      { status := .returned true, data := front, pipe := { p with mDataList := rest } }

/-- The part of `Pop` from `mPopCv.wait(lock, pred)` on; it is also where a reader that
was suspended starts again when it is woken with the pipe in state `p`. -/
def Pipe.PopFromWait {DATA : Type} (p : Pipe DATA) (data : DATA) : PopOutcome DATA :=
  if p.popPred then
    p.PopAfterWait data
  else
    { status := .suspended, data := data, pipe := p }

/-- Member `bool Pipe<DATA>::Pop(DATA& data)`: the first
`if(mDataList.empty() && !mHasMore) return false;`, then the wait and the rest. -/
def Pipe.Pop {DATA : Type} (p : Pipe DATA) (data : DATA) : PopOutcome DATA :=
  if p.mDataList.isEmpty && !p.mHasMore then
    { status := .returned false, data := data, pipe := p }
  else
    p.PopFromWait data

/-- Member `void Pipe<DATA>::SetHasMore(bool hasMore)`: `mHasMore = hasMore;`. -/
def Pipe.SetHasMore {DATA : Type} (p : Pipe DATA) (hasMore : Bool) : Pipe DATA :=
  { p with mHasMore := hasMore }

/-- Member `void Pipe<DATA>::Clear()`: `mDataList.clear(); mHasMore = true;`. -/
def Pipe.Clear {DATA : Type} (p : Pipe DATA) : Pipe DATA :=
  { p with mDataList := [], mHasMore := true }

/-- One call on the pipe. `pop data` carries the value the caller's variable holds
when `Pop(data)` is called. -/
inductive Op (DATA : Type) where
  | push (data : DATA)
  | pushMove (data : DATA)
  | pop (data : DATA)
  | setHasMore (hasMore : Bool)
  | clear
  deriving DecidableEq, Repr

/-- What the callers of a run have observed. -/
structure Log (DATA : Type) where
  /-- Return values of the `Pop` calls, in order. -/
  returns : List Bool
  /-- The caller's variable after each `Pop` call that returned `true`, in order. -/
  popped : List DATA
  /-- The elements destroyed by `mDataList.clear()` in the `Clear` calls, in order. -/
  discarded : List DATA
  deriving DecidableEq, Repr

/-- The log before any call. -/
def Log.empty {DATA : Type} : Log DATA :=
  { returns := [], popped := [], discarded := [] }

/-- Perform one call to completion: `none` when the call suspends (or is undefined)
instead of returning. -/
def stepOp {DATA : Type} (op : Op DATA) (s : Pipe DATA × Log DATA) :
    Option (Pipe DATA × Log DATA) :=
  match op with
  | .push data =>
    match (s.1.Push data).status with
    | .returned => some ((s.1.Push data).pipe, s.2)
    | .suspended => none
  | .pushMove data =>
    match (s.1.PushMove data).status with
    | .returned => some ((s.1.PushMove data).pipe, s.2)
    | .suspended => none
  | .pop data =>
    match (s.1.Pop data).status with
    | .returned true =>
      some ((s.1.Pop data).pipe,
        { s.2 with returns := s.2.returns ++ [true],
                   popped := s.2.popped ++ [(s.1.Pop data).data] })
    | .returned false =>
      some ((s.1.Pop data).pipe, { s.2 with returns := s.2.returns ++ [false] })
    | .suspended => none
    | .undefined => none
  | .setHasMore hasMore => some (s.1.SetHasMore hasMore, s.2)
  | .clear => some (s.1.Clear, { s.2 with discarded := s.2.discarded ++ s.1.mDataList })

/-- Perform the calls of `ops` one after the other, each to completion: `none` as soon
as one of them does not return. -/
def runOps {DATA : Type} : List (Op DATA) → Pipe DATA × Log DATA →
    Option (Pipe DATA × Log DATA)
  | [], s => some s
  | op :: ops, s =>
    match stepOp op s with
    | some s' => runOps ops s'
    | none => none

/-- The items of the `Push` calls in `ops`, in order. -/
def pushedItems {DATA : Type} : List (Op DATA) → List DATA
  | [] => []
  | .push data :: ops => data :: pushedItems ops
  | .pushMove data :: ops => data :: pushedItems ops
  | _ :: ops => pushedItems ops

/-- Whether `ops` has no `Clear` call. -/
def noClear {DATA : Type} : List (Op DATA) → Bool
  | [] => true
  | .clear :: _ => false
  | _ :: ops => noClear ops

/-- Whether `ops` has no `Push` call (of either overload), no `Clear` call and no
`SetHasMore(true)` call, that is, consists of `Pop` and `SetHasMore(false)` calls. -/
def noPushClearReopen {DATA : Type} : List (Op DATA) → Bool
  | [] => true
  | .push _ :: _ => false
  | .pushMove _ :: _ => false
  | .clear :: _ => false
  | .setHasMore true :: _ => false
  | .setHasMore false :: ops => noPushClearReopen ops
  | .pop _ :: ops => noPushClearReopen ops

/-- The number of `Pop` calls in `ops`. -/
def popCalls {DATA : Type} : List (Op DATA) → Nat
  | [] => 0
  | .pop _ :: ops => popCalls ops + 1
  | _ :: ops => popCalls ops

/-- The code of `Pop` with its first `if(mDataList.empty() && !mHasMore) return false;`
taken out, everything else as written: the predicate wait, the second check, then the
removal of the front element. Written out in full, for comparison with `Pipe.Pop`. -/
def Pipe.PopWithoutFirstCheck {DATA : Type} (p : Pipe DATA) (data : DATA) :
    PopOutcome DATA :=
  if !p.mDataList.isEmpty || !p.mHasMore then
    if p.mDataList.isEmpty && !p.mHasMore then
      { status := .returned false, data := data, pipe := p }
    else
      match p.mDataList with
      | [] => { status := .undefined, data := data, pipe := p }
      | front :: rest =>
        { status := .returned true, data := front, pipe := { p with mDataList := rest } }
  else
    { status := .suspended, data := data, pipe := p }

/-- The pipe together with the reader threads that are inside `mPopCv.wait`, each named
by the value of its `data` variable. `wait` releases `mMtx` and suspends in one step, and
every notification is issued with `mMtx` held, so a reader is in exactly one of the two
lists from the moment its wait predicate was found false. -/
structure PopWaiters (DATA : Type) where
  /-- The data members of the pipe. -/
  pipe : Pipe DATA
  /-- Readers suspended in `mPopCv.wait` that no notification has reached. -/
  waiting : List DATA
  /-- Readers that a notification on `mPopCv` has reached: each re-tests the wait
  predicate and goes on (`Pipe.PopFromWait`) when it holds `mMtx` again. -/
  notified : List DATA
  deriving DecidableEq, Repr

/-- A reader thread calls `Pop(data)`: as `Pipe.Pop`, and a reader that suspends in
`mPopCv.wait` joins the waiting readers. -/
def PopWaiters.Pop {DATA : Type} (s : PopWaiters DATA) (data : DATA) : PopWaiters DATA :=
  match (s.pipe.Pop data).status with
  | .suspended => { s with waiting := s.waiting ++ [data] }
  | _ => { s with pipe := (s.pipe.Pop data).pipe }

/-- Member `SetHasMore(hasMore)` with its `mPopCv.notify_all()`: `mHasMore = hasMore;`,
and every reader waiting on `mPopCv` is notified. -/
def PopWaiters.SetHasMore {DATA : Type} (s : PopWaiters DATA) (hasMore : Bool) :
    PopWaiters DATA :=
  { pipe := s.pipe.SetHasMore hasMore, waiting := [], notified := s.notified ++ s.waiting }

/-- Call `mPopCv.notify_one()`: when no reader is waiting nothing happens; otherwise one
waiting reader becomes notified. Which one is not specified: `wake` picks it, counted
round the list of waiting readers. Gives the waiting and the notified readers after. -/
def notifyOne {DATA : Type} (waiting notified : List DATA) (wake : Nat) :
    List DATA × List DATA :=
  match waiting[wake % waiting.length]? with
  | some reader => (waiting.eraseIdx (wake % waiting.length), notified ++ [reader])
  | none => (waiting, notified)

/-- A thread calls `Push(const DATA&)`: as `Pipe.Push`; when the call returns, its
`mPopCv.notify_one()` has notified one waiting reader. A writer that suspends has written
nothing; when it goes on later it is a `Push` in the state it wakes in, which is a call of
its own here. -/
def PopWaiters.Push {DATA : Type} (s : PopWaiters DATA) (data : DATA) (wake : Nat) :
    PopWaiters DATA :=
  match (s.pipe.Push data).status with
  | .suspended => s
  | .returned =>
    { pipe := (s.pipe.Push data).pipe,
      waiting := (notifyOne s.waiting s.notified wake).1,
      notified := (notifyOne s.waiting s.notified wake).2 }

/-- A thread calls `Push(DATA&&)`: as `Pipe.PushMove`, with the same notification. -/
def PopWaiters.PushMove {DATA : Type} (s : PopWaiters DATA) (data : DATA) (wake : Nat) :
    PopWaiters DATA :=
  match (s.pipe.PushMove data).status with
  | .suspended => s
  | .returned =>
    { pipe := (s.pipe.PushMove data).pipe,
      waiting := (notifyOne s.waiting s.notified wake).1,
      notified := (notifyOne s.waiting s.notified wake).2 }

/-- Member `Clear()` with its `mPopCv.notify_all()`: `mDataList.clear(); mHasMore = true;`,
and every reader waiting on `mPopCv` is notified. -/
def PopWaiters.Clear {DATA : Type} (s : PopWaiters DATA) : PopWaiters DATA :=
  { pipe := s.pipe.Clear, waiting := [], notified := s.notified ++ s.waiting }

/-- What the notified reader number `i` does when it gets `mMtx` again in state `s`: it
goes on from its wait (`Pipe.PopFromWait`). `none` when there is no such reader. -/
def PopWaiters.resumeOutcome {DATA : Type} (s : PopWaiters DATA) (i : Nat) :
    Option (PopOutcome DATA) :=
  match s.notified[i]? with
  | none => none
  | some data => some (s.pipe.PopFromWait data)

/-- The notified reader number `i` gets `mMtx` again: it goes on from its wait; if its
predicate is false it waits on `mPopCv` again, otherwise its `Pop` returns. -/
def PopWaiters.resume {DATA : Type} (s : PopWaiters DATA) (i : Nat) : PopWaiters DATA :=
  match s.notified[i]? with
  | none => s
  | some data =>
    match (s.pipe.PopFromWait data).status with
    | .suspended =>
      { s with waiting := s.waiting ++ [data], notified := s.notified.eraseIdx i }
    | _ => { s with pipe := (s.pipe.PopFromWait data).pipe,
                    notified := s.notified.eraseIdx i }

/-- The waiting reader number `i` wakes up without a notification (a spurious wake-up):
it will re-test its predicate like a notified reader. -/
def PopWaiters.spuriousWakeup {DATA : Type} (s : PopWaiters DATA) (i : Nat) :
    PopWaiters DATA :=
  match s.waiting[i]? with
  | none => s
  | some data => { s with waiting := s.waiting.eraseIdx i, notified := s.notified ++ [data] }

/-- What can take `mMtx` next: a thread calling a member function (for `Push`, with the
choice its `notify_one` makes), a notified reader getting the mutex back, or a waiting
reader waking up spuriously. -/
inductive Event (DATA : Type) where
  | push (data : DATA) (wake : Nat)
  | pushMove (data : DATA) (wake : Nat)
  | pop (data : DATA)
  | setHasMore (hasMore : Bool)
  | clear
  | resume (i : Nat)
  | spuriousWakeup (i : Nat)
  deriving DecidableEq, Repr

/-- One event, from the state `s`. -/
def PopWaiters.step {DATA : Type} (s : PopWaiters DATA) : Event DATA → PopWaiters DATA
  | .push data wake => s.Push data wake
  | .pushMove data wake => s.PushMove data wake
  | .pop data => s.Pop data
  | .setHasMore hasMore => s.SetHasMore hasMore
  | .clear => s.Clear
  | .resume i => s.resume i
  | .spuriousWakeup i => s.spuriousWakeup i

/-- The events of a list, one after the other: any interleaving of the threads. -/
def runEvents {DATA : Type} : List (Event DATA) → PopWaiters DATA → PopWaiters DATA
  | [], s => s
  | e :: es, s => runEvents es (s.step e)

/-- Whether the events contain no `Clear` call and no `SetHasMore(true)` call. -/
def noReopen {DATA : Type} : List (Event DATA) → Bool
  | [] => true
  | .clear :: _ => false
  | .setHasMore true :: _ => false
  | _ :: es => noReopen es

/-- A freshly constructed pipe, no reader waiting. -/
def PopWaiters.ctor {DATA : Type} (capacity : Nat) : PopWaiters DATA :=
  { pipe := Pipe.ctor capacity, waiting := [], notified := [] }

/-! Single calls -/

theorem isEmpty_eq_true_iff {DATA : Type} (xs : List DATA) : xs.isEmpty = true ↔ xs = [] := by
  cases xs <;> simp

/-- `Pop` never calls `front()` on an empty deque. -/
theorem Pop_status_ne_undefined {DATA : Type} (p : Pipe DATA) (data : DATA) :
    (p.Pop data).status ≠ .undefined := by
  obtain ⟨xs, cap, hm⟩ := p
  cases xs <;> cases hm <;> simp [Pipe.Pop, Pipe.PopFromWait, Pipe.PopAfterWait, Pipe.popPred]

/-- `Pop` on an empty, closed pipe. -/
theorem Pop_nil_closed {DATA : Type} (cap : Nat) (data : DATA) :
    Pipe.Pop { mDataList := [], mCapacity := cap, mHasMore := false } data =
      { status := .returned false, data := data,
        pipe := { mDataList := [], mCapacity := cap, mHasMore := false } } := by
  simp [Pipe.Pop]

/-- `Pop` on an empty, open pipe. -/
theorem Pop_nil_open {DATA : Type} (cap : Nat) (data : DATA) :
    Pipe.Pop { mDataList := [], mCapacity := cap, mHasMore := true } data =
      { status := .suspended, data := data,
        pipe := { mDataList := [], mCapacity := cap, mHasMore := true } } := by
  simp [Pipe.Pop, Pipe.PopFromWait, Pipe.popPred]

/-- `Pop` on a pipe with at least one item. -/
theorem Pop_cons {DATA : Type} (front : DATA) (rest : List DATA) (cap : Nat) (hm : Bool)
    (data : DATA) :
    Pipe.Pop { mDataList := front :: rest, mCapacity := cap, mHasMore := hm } data =
      { status := .returned true, data := front,
        pipe := { mDataList := rest, mCapacity := cap, mHasMore := hm } } := by
  simp [Pipe.Pop, Pipe.PopFromWait, Pipe.PopAfterWait, Pipe.popPred]

/-- A reader woken in state `p` behaves as a `Pop` called in state `p`. -/
theorem PopFromWait_eq_Pop {DATA : Type} (p : Pipe DATA) (data : DATA) :
    p.PopFromWait data = p.Pop data := by
  obtain ⟨xs, cap, hm⟩ := p
  cases xs <;> cases hm <;> simp [Pipe.Pop, Pipe.PopFromWait, Pipe.PopAfterWait, Pipe.popPred]

theorem pushPred_eq_true_iff {DATA : Type} (p : Pipe DATA) :
    p.pushPred = true ↔ (p.mCapacity = 0 ∨ p.mDataList.length < p.mCapacity) := by
  simp [Pipe.pushPred]

theorem pushPred_eq_false_iff {DATA : Type} (p : Pipe DATA) :
    p.pushPred = false ↔ (0 < p.mCapacity ∧ p.mCapacity ≤ p.mDataList.length) := by
  simp [Pipe.pushPred]
  omega

theorem Push_of_pred {DATA : Type} (p : Pipe DATA) (data : DATA) (h : p.pushPred = true) :
    p.Push data =
      { status := .returned, pipe := { p with mDataList := p.mDataList ++ [data] } } := by
  simp [Pipe.Push, h]

theorem Push_of_not_pred {DATA : Type} (p : Pipe DATA) (data : DATA)
    (h : p.pushPred = false) : p.Push data = { status := .suspended, pipe := p } := by
  simp [Pipe.Push, h]

theorem PushMove_eq_Push {DATA : Type} (p : Pipe DATA) (data : DATA) :
    p.PushMove data = p.Push data := rfl

/-! Single steps of a run -/

theorem stepOp_push {DATA : Type} (p : Pipe DATA) (log : Log DATA) (data : DATA) :
    stepOp (.push data) (p, log) =
      if p.pushPred then some ({ p with mDataList := p.mDataList ++ [data] }, log)
      else none := by
  cases h : p.pushPred <;> simp [stepOp, Pipe.Push, h]

theorem stepOp_pushMove {DATA : Type} (p : Pipe DATA) (log : Log DATA) (data : DATA) :
    stepOp (.pushMove data) (p, log) = stepOp (.push data) (p, log) := rfl

theorem stepOp_pop_cons {DATA : Type} (front : DATA) (rest : List DATA) (cap : Nat)
    (hm : Bool) (log : Log DATA) (data : DATA) :
    stepOp (.pop data) ({ mDataList := front :: rest, mCapacity := cap, mHasMore := hm }, log) =
      some ({ mDataList := rest, mCapacity := cap, mHasMore := hm },
        { log with returns := log.returns ++ [true], popped := log.popped ++ [front] }) := by
  simp [stepOp, Pop_cons]

theorem stepOp_pop_nil_closed {DATA : Type} (cap : Nat) (log : Log DATA) (data : DATA) :
    stepOp (.pop data) ({ mDataList := [], mCapacity := cap, mHasMore := false }, log) =
      some ({ mDataList := [], mCapacity := cap, mHasMore := false },
        { log with returns := log.returns ++ [false] }) := by
  simp [stepOp, Pop_nil_closed]

theorem stepOp_pop_nil_open {DATA : Type} (cap : Nat) (log : Log DATA) (data : DATA) :
    stepOp (.pop data) ({ mDataList := [], mCapacity := cap, mHasMore := true }, log) =
      none := by
  simp [stepOp, Pop_nil_open]

theorem runOps_cons {DATA : Type} (op : Op DATA) (ops : List (Op DATA))
    (s : Pipe DATA × Log DATA) :
    runOps (op :: ops) s = (stepOp op s).bind (runOps ops) := by
  cases h : stepOp op s <;> simp [runOps, h]

/-- Any number of `Pop` calls on an empty, closed pipe: all return `false`. -/
theorem runOps_pops_nil_closed {DATA : Type} (cap : Nat) (ds : List DATA) (log : Log DATA) :
    runOps (ds.map Op.pop) ({ mDataList := [], mCapacity := cap, mHasMore := false }, log) =
      some ({ mDataList := [], mCapacity := cap, mHasMore := false },
        { log with returns := log.returns ++ List.replicate ds.length false }) := by
  induction ds generalizing log with
  | nil => simp [runOps]
  | cons d ds ih =>
    simp only [List.map_cons, runOps_cons, stepOp_pop_nil_closed, Option.some_bind, ih,
      List.length_cons, List.replicate_succ, List.append_assoc, List.singleton_append]

/-! Invariants of a run -/

/-- What one completed call does to the pipe and the log, call by call. -/
theorem stepOp_eq_some {DATA : Type} (op : Op DATA) (p p' : Pipe DATA) (log log' : Log DATA)
    (h : stepOp op (p, log) = some (p', log')) :
    (∃ data, (op = .push data ∨ op = .pushMove data) ∧ p.pushPred = true ∧
      p' = { p with mDataList := p.mDataList ++ [data] } ∧ log' = log) ∨
    (∃ data front, op = .pop data ∧ p.mDataList = front :: p'.mDataList ∧
      p'.mCapacity = p.mCapacity ∧ p'.mHasMore = p.mHasMore ∧
      log' = { log with returns := log.returns ++ [true], popped := log.popped ++ [front] }) ∨
    (∃ data, op = .pop data ∧ p.mDataList = [] ∧ p.mHasMore = false ∧ p' = p ∧
      log' = { log with returns := log.returns ++ [false] }) ∨
    (∃ hasMore, op = .setHasMore hasMore ∧ p' = p.SetHasMore hasMore ∧ log' = log) ∨
    (op = .clear ∧ p' = p.Clear ∧
      log' = { log with discarded := log.discarded ++ p.mDataList }) := by
  cases op with
  | push data =>
    rw [stepOp_push] at h
    cases hp : p.pushPred
    · simp [hp] at h
    · simp only [hp, if_true, Option.some.injEq, Prod.mk.injEq] at h
      exact Or.inl ⟨data, Or.inl rfl, rfl, h.1.symm, h.2.symm⟩
  | pushMove data =>
    rw [stepOp_pushMove, stepOp_push] at h
    cases hp : p.pushPred
    · simp [hp] at h
    · simp only [hp, if_true, Option.some.injEq, Prod.mk.injEq] at h
      exact Or.inl ⟨data, Or.inr rfl, rfl, h.1.symm, h.2.symm⟩
  | pop data =>
    obtain ⟨xs, cap, hm⟩ := p
    cases xs with
    | nil =>
      cases hm
      · rw [stepOp_pop_nil_closed] at h
        simp only [Option.some.injEq, Prod.mk.injEq] at h
        exact Or.inr (Or.inr (Or.inl ⟨data, rfl, rfl, rfl, h.1.symm, h.2.symm⟩))
      · rw [stepOp_pop_nil_open] at h
        exact absurd h (by simp)
    | cons front rest =>
      rw [stepOp_pop_cons] at h
      simp only [Option.some.injEq, Prod.mk.injEq] at h
      obtain ⟨h1, h2⟩ := h
      subst h1
      exact Or.inr (Or.inl ⟨data, front, rfl, rfl, rfl, rfl, h2.symm⟩)
  | setHasMore hasMore =>
    simp only [stepOp, Option.some.injEq, Prod.mk.injEq] at h
    exact Or.inr (Or.inr (Or.inr (Or.inl ⟨hasMore, rfl, h.1.symm, h.2.symm⟩)))
  | clear =>
    simp only [stepOp, Option.some.injEq, Prod.mk.injEq] at h
    exact Or.inr (Or.inr (Or.inr (Or.inr ⟨rfl, h.1.symm, h.2.symm⟩)))

/-- A completed call keeps the capacity. -/
theorem stepOp_capacity {DATA : Type} (op : Op DATA) (p p' : Pipe DATA) (log log' : Log DATA)
    (h : stepOp op (p, log) = some (p', log')) : p'.mCapacity = p.mCapacity := by
  rcases stepOp_eq_some op p p' log log' h with
    ⟨d, -, -, hp, -⟩ | ⟨d, x, -, -, hc, -, -⟩ | ⟨d, -, -, -, hp, -⟩ | ⟨b, -, hp, -⟩ | ⟨-, hp, -⟩
  · rw [hp]
  · exact hc
  · rw [hp]
  · rw [hp]; rfl
  · rw [hp]; rfl

/-- A completed call keeps the buffer within a positive capacity. -/
theorem stepOp_length_le {DATA : Type} (op : Op DATA) (p p' : Pipe DATA) (log log' : Log DATA)
    (h : stepOp op (p, log) = some (p', log')) (hpos : 0 < p.mCapacity)
    (hle : p.mDataList.length ≤ p.mCapacity) : p'.mDataList.length ≤ p.mCapacity := by
  rcases stepOp_eq_some op p p' log log' h with
    ⟨d, -, hpred, hp, -⟩ | ⟨d, x, -, hl, -, -, -⟩ | ⟨d, -, -, -, hp, -⟩ | ⟨b, -, hp, -⟩ |
    ⟨-, hp, -⟩
  · rw [pushPred_eq_true_iff] at hpred
    rw [hp]
    simp only [List.length_append, List.length_singleton]
    omega
  · rw [hl] at hle
    simp only [List.length_cons] at hle
    omega
  · rw [hp]; exact hle
  · rw [hp]; exact hle
  · rw [hp]; simp [Pipe.Clear]

/-- A completed call other than `Clear` keeps "popped items, then buffer" equal to the
items pushed so far. -/
theorem stepOp_fifo {DATA : Type} (op : Op DATA) (p p' : Pipe DATA) (log log' : Log DATA)
    (h : stepOp op (p, log) = some (p', log')) (hop : op ≠ .clear) :
    log'.popped ++ p'.mDataList = log.popped ++ p.mDataList ++ pushedItems [op] := by
  rcases stepOp_eq_some op p p' log log' h with
    ⟨d, hd, -, hp, hl⟩ | ⟨d, x, hd, hx, -, -, hl⟩ | ⟨d, hd, -, -, hp, hl⟩ | ⟨b, hd, hp, hl⟩ |
    ⟨hd, -, -⟩
  · rcases hd with hd | hd <;> simp [hd, hp, hl, pushedItems]
  · simp [hd, hx, hl, pushedItems]
  · simp [hd, hp, hl, pushedItems]
  · simp [hd, hp, hl, pushedItems, Pipe.SetHasMore]
  · exact absurd hd hop

/-- A completed call keeps the balance: successful pops, discarded items and buffered
items together grow by the number of items the call pushes. -/
theorem stepOp_count {DATA : Type} (op : Op DATA) (p p' : Pipe DATA) (log log' : Log DATA)
    (h : stepOp op (p, log) = some (p', log')) :
    log'.returns.count true + log'.discarded.length + p'.mDataList.length =
      log.returns.count true + log.discarded.length + p.mDataList.length +
        (pushedItems [op]).length := by
  rcases stepOp_eq_some op p p' log log' h with
    ⟨d, hd, -, hp, hl⟩ | ⟨d, x, hd, hx, -, -, hl⟩ | ⟨d, hd, -, -, hp, hl⟩ | ⟨b, hd, hp, hl⟩ |
    ⟨hd, hp, hl⟩
  · rcases hd with hd | hd <;> simp [hd, hp, hl, pushedItems] <;> omega
  · simp [hd, hx, hl, pushedItems]; omega
  · simp [hd, hp, hl, pushedItems]
  · simp [hd, hp, hl, pushedItems, Pipe.SetHasMore]
  · simp [hd, hp, hl, pushedItems, Pipe.Clear]; omega

/-- A completed call keeps the number of handed-out items equal to the number of `Pop`
calls that returned `true`. -/
theorem stepOp_popped_length {DATA : Type} (op : Op DATA) (p p' : Pipe DATA)
    (log log' : Log DATA) (h : stepOp op (p, log) = some (p', log'))
    (hlog : log.popped.length = log.returns.count true) :
    log'.popped.length = log'.returns.count true := by
  rcases stepOp_eq_some op p p' log log' h with
    ⟨d, -, -, -, hl⟩ | ⟨d, x, -, -, -, -, hl⟩ | ⟨d, -, -, -, -, hl⟩ | ⟨b, -, -, hl⟩ |
    ⟨-, -, hl⟩
  · rw [hl]; exact hlog
  · simp [hl, hlog]
  · simp [hl, hlog]
  · rw [hl]; exact hlog
  · simp [hl, hlog]

theorem pushedItems_cons {DATA : Type} (op : Op DATA) (ops : List (Op DATA)) :
    pushedItems (op :: ops) = pushedItems [op] ++ pushedItems ops := by
  cases op <;> simp [pushedItems]

theorem noClear_cons {DATA : Type} (op : Op DATA) (ops : List (Op DATA)) :
    noClear (op :: ops) = true ↔ (op ≠ .clear ∧ noClear ops = true) := by
  cases op <;> simp [noClear]

/-- One completed call followed by a completed run, as one completed run. -/
theorem runOps_cons_eq_some {DATA : Type} (op : Op DATA) (ops : List (Op DATA))
    (s s' : Pipe DATA × Log DATA) (h : runOps (op :: ops) s = some s') :
    ∃ s1, stepOp op s = some s1 ∧ runOps ops s1 = some s' := by
  rw [runOps_cons] at h
  cases hs : stepOp op s with
  | none => simp [hs] at h
  | some s1 => exact ⟨s1, rfl, by simpa [hs] using h⟩

theorem runOps_capacity {DATA : Type} (ops : List (Op DATA)) (p p' : Pipe DATA)
    (log log' : Log DATA) (h : runOps ops (p, log) = some (p', log')) :
    p'.mCapacity = p.mCapacity := by
  induction ops generalizing p log with
  | nil =>
    simp only [runOps, Option.some.injEq, Prod.mk.injEq] at h
    rw [h.1]
  | cons op ops ih =>
    obtain ⟨⟨p1, log1⟩, h1, h2⟩ := runOps_cons_eq_some op ops _ _ h
    rw [ih p1 log1 h2, stepOp_capacity op p p1 log log1 h1]

theorem runOps_length_le {DATA : Type} (ops : List (Op DATA)) (p p' : Pipe DATA)
    (log log' : Log DATA) (h : runOps ops (p, log) = some (p', log'))
    (hpos : 0 < p.mCapacity) (hle : p.mDataList.length ≤ p.mCapacity) :
    p'.mDataList.length ≤ p.mCapacity := by
  induction ops generalizing p log with
  | nil =>
    simp only [runOps, Option.some.injEq, Prod.mk.injEq] at h
    rw [← h.1]; exact hle
  | cons op ops ih =>
    obtain ⟨⟨p1, log1⟩, h1, h2⟩ := runOps_cons_eq_some op ops _ _ h
    have hc := stepOp_capacity op p p1 log log1 h1
    have hl := stepOp_length_le op p p1 log log1 h1 hpos hle
    rw [← hc] at hpos hl ⊢
    exact ih p1 log1 h2 hpos hl

theorem runOps_fifo {DATA : Type} (ops : List (Op DATA)) (p p' : Pipe DATA)
    (log log' : Log DATA) (h : runOps ops (p, log) = some (p', log'))
    (hops : noClear ops = true) :
    log'.popped ++ p'.mDataList = log.popped ++ p.mDataList ++ pushedItems ops := by
  induction ops generalizing p log with
  | nil =>
    simp only [runOps, Option.some.injEq, Prod.mk.injEq] at h
    simp [← h.1, ← h.2, pushedItems]
  | cons op ops ih =>
    obtain ⟨⟨p1, log1⟩, h1, h2⟩ := runOps_cons_eq_some op ops _ _ h
    rw [noClear_cons] at hops
    rw [ih p1 log1 h2 hops.2, stepOp_fifo op p p1 log log1 h1 hops.1, pushedItems_cons op ops,
      List.append_assoc]

theorem runOps_count {DATA : Type} (ops : List (Op DATA)) (p p' : Pipe DATA)
    (log log' : Log DATA) (h : runOps ops (p, log) = some (p', log')) :
    log'.returns.count true + log'.discarded.length + p'.mDataList.length =
      log.returns.count true + log.discarded.length + p.mDataList.length +
        (pushedItems ops).length := by
  induction ops generalizing p log with
  | nil =>
    simp only [runOps, Option.some.injEq, Prod.mk.injEq] at h
    simp [← h.1, ← h.2, pushedItems]
  | cons op ops ih =>
    obtain ⟨⟨p1, log1⟩, h1, h2⟩ := runOps_cons_eq_some op ops _ _ h
    rw [ih p1 log1 h2, stepOp_count op p p1 log log1 h1, pushedItems_cons op ops,
      List.length_append]
    omega

theorem runOps_popped_length {DATA : Type} (ops : List (Op DATA)) (p p' : Pipe DATA)
    (log log' : Log DATA) (h : runOps ops (p, log) = some (p', log'))
    (hlog : log.popped.length = log.returns.count true) :
    log'.popped.length = log'.returns.count true := by
  induction ops generalizing p log with
  | nil =>
    simp only [runOps, Option.some.injEq, Prod.mk.injEq] at h
    rw [← h.2]; exact hlog
  | cons op ops ih =>
    obtain ⟨⟨p1, log1⟩, h1, h2⟩ := runOps_cons_eq_some op ops _ _ h
    exact ih p1 log1 h2 (stepOp_popped_length op p p1 log log1 h1 hlog)

/-- Any number of `Pop` calls on a closed pipe: the first ones take the buffered items
from the front and return `true`, the others return `false`. -/
theorem runOps_pops_closed {DATA : Type} (xs : List DATA) (cap : Nat) (ds : List DATA)
    (log : Log DATA) :
    runOps (ds.map Op.pop) ({ mDataList := xs, mCapacity := cap, mHasMore := false }, log) =
      some ({ mDataList := xs.drop ds.length, mCapacity := cap, mHasMore := false },
        { returns := log.returns ++ (List.replicate (min ds.length xs.length) true ++
            List.replicate (ds.length - xs.length) false),
          popped := log.popped ++ xs.take ds.length,
          discarded := log.discarded }) := by
  induction ds generalizing xs log with
  | nil => simp [runOps]
  | cons d ds ih =>
    cases xs with
    | nil =>
      have h := runOps_pops_nil_closed cap (d :: ds) log
      simpa using h
    | cons x xs =>
      simp only [List.map_cons, runOps_cons, stepOp_pop_cons, Option.some_bind, ih,
        List.length_cons, List.drop_succ_cons, List.take_succ_cons, Nat.succ_min_succ,
        List.replicate_succ, Nat.succ_sub_succ, List.append_assoc, List.singleton_append,
        List.cons_append, List.nil_append]

/-! Runs of pushes and of pops -/

theorem runOps_append {DATA : Type} (ops1 ops2 : List (Op DATA)) (s : Pipe DATA × Log DATA) :
    runOps (ops1 ++ ops2) s = (runOps ops1 s).bind (runOps ops2) := by
  induction ops1 generalizing s with
  | nil => simp [runOps]
  | cons op ops1 ih =>
    rw [List.cons_append, runOps_cons, runOps_cons]
    cases stepOp op s with
    | none => simp
    | some s1 => simp [ih]

/-- A run of `Push` calls that all find room: every one completes and the items are
appended in call order. -/
theorem runOps_pushes {DATA : Type} (xs0 xs : List DATA) (cap : Nat) (hm : Bool)
    (log : Log DATA) (hRoom : cap = 0 ∨ xs0.length + xs.length ≤ cap) :
    runOps (xs.map Op.push) ({ mDataList := xs0, mCapacity := cap, mHasMore := hm }, log) =
      some ({ mDataList := xs0 ++ xs, mCapacity := cap, mHasMore := hm }, log) := by
  induction xs generalizing xs0 with
  | nil => simp [runOps]
  | cons x xs ih =>
    have hpred : Pipe.pushPred
        ({ mDataList := xs0, mCapacity := cap, mHasMore := hm } : Pipe DATA) = true := by
      rw [pushPred_eq_true_iff]
      simp only [List.length_cons] at hRoom
      simp only
      omega
    have hRoom1 : cap = 0 ∨ (xs0 ++ [x]).length + xs.length ≤ cap := by
      simp only [List.length_cons, List.length_append, List.length_singleton,
        List.length_nil] at hRoom ⊢
      omega
    simp only [List.map_cons, runOps_cons, stepOp_push, hpred, if_true, Option.some_bind,
      ih (xs0 ++ [x]) hRoom1, List.append_assoc, List.singleton_append]

/-- A run of `Pop` calls no longer than the buffer: every one returns `true` and takes
the front item, whatever `mHasMore` is. -/
theorem runOps_pops_avail {DATA : Type} (xs : List DATA) (cap : Nat) (hm : Bool)
    (ds : List DATA) (log : Log DATA) (hLen : ds.length ≤ xs.length) :
    runOps (ds.map Op.pop) ({ mDataList := xs, mCapacity := cap, mHasMore := hm }, log) =
      some ({ mDataList := xs.drop ds.length, mCapacity := cap, mHasMore := hm },
        { returns := log.returns ++ List.replicate ds.length true,
          popped := log.popped ++ xs.take ds.length,
          discarded := log.discarded }) := by
  induction ds generalizing xs log with
  | nil => simp [runOps]
  | cons d ds ih =>
    cases xs with
    | nil => simp at hLen
    | cons x xs =>
      simp only [List.length_cons, Nat.add_le_add_iff_right] at hLen
      simp only [List.map_cons, runOps_cons, stepOp_pop_cons, Option.some_bind, ih xs _ hLen,
        List.length_cons, List.drop_succ_cons, List.take_succ_cons, List.replicate_succ,
        List.append_assoc, List.singleton_append, List.cons_append, List.nil_append]

/-- A run of `Pop` and `SetHasMore(false)` calls on a closed pipe: every call completes,
the pipe stays closed, the first `Pop` calls take the buffered items from the front and
return `true`, the others return `false`. -/
theorem runOps_drain_closed {DATA : Type} (xs : List DATA) (cap : Nat) (ops : List (Op DATA))
    (log : Log DATA) (hOps : noPushClearReopen ops = true) :
    runOps ops ({ mDataList := xs, mCapacity := cap, mHasMore := false }, log) =
      some ({ mDataList := xs.drop (popCalls ops), mCapacity := cap, mHasMore := false },
        { returns := log.returns ++ (List.replicate (min (popCalls ops) xs.length) true ++
            List.replicate (popCalls ops - xs.length) false),
          popped := log.popped ++ xs.take (popCalls ops),
          discarded := log.discarded }) := by
  induction ops generalizing xs log with
  | nil => simp [runOps, popCalls]
  | cons op ops ih =>
    cases op with
    | push data => simp [noPushClearReopen] at hOps
    | pushMove data => simp [noPushClearReopen] at hOps
    | clear => simp [noPushClearReopen] at hOps
    | setHasMore hasMore =>
      cases hasMore with
      | true => simp [noPushClearReopen] at hOps
      | false =>
        simp only [noPushClearReopen] at hOps
        simp only [runOps_cons, stepOp, Pipe.SetHasMore, Option.some_bind, ih xs log hOps,
          popCalls]
    | pop data =>
      simp only [noPushClearReopen] at hOps
      cases xs with
      | nil =>
        simp only [runOps_cons, stepOp_pop_nil_closed, Option.some_bind, ih [] _ hOps, popCalls,
          List.drop_nil, List.take_nil, List.length_nil, Nat.min_zero, Nat.sub_zero,
          List.replicate_zero, List.nil_append, List.replicate_succ, List.append_assoc,
          List.singleton_append, List.append_nil]
      | cons x xs =>
        simp only [runOps_cons, stepOp_pop_cons, Option.some_bind, ih xs _ hOps, popCalls,
          List.length_cons, List.drop_succ_cons, List.take_succ_cons, Nat.succ_min_succ,
          List.replicate_succ, Nat.succ_sub_succ, List.append_assoc, List.singleton_append,
          List.cons_append, List.nil_append]

/-! Readers woken by a notification -/

theorem notifyOne_nil {DATA : Type} (notified : List DATA) (wake : Nat) :
    notifyOne [] notified wake = ([], notified) := by
  simp [notifyOne]

/-- `Pop` leaves `mHasMore` as it was, whatever its status. -/
theorem Pop_pipe_mHasMore {DATA : Type} (p : Pipe DATA) (data : DATA) :
    (p.Pop data).pipe.mHasMore = p.mHasMore := by
  obtain ⟨xs, cap, hm⟩ := p
  cases xs with
  | nil =>
    cases hm
    · rw [Pop_nil_closed]
    · rw [Pop_nil_open]
  | cons front rest => rw [Pop_cons]

/-- `Pop` on a closed pipe does not suspend. -/
theorem Pop_closed_status {DATA : Type} (xs : List DATA) (cap : Nat) (data : DATA) :
    ∃ result, (Pipe.Pop { mDataList := xs, mCapacity := cap, mHasMore := false } data).status =
      .returned result := by
  cases xs with
  | nil => exact ⟨false, by rw [Pop_nil_closed]⟩
  | cons front rest => exact ⟨true, by rw [Pop_cons]⟩

/-- `Pop` suspends only on an empty, open pipe, and leaves it as it is. -/
theorem Pop_suspended {DATA : Type} (p : Pipe DATA) (data : DATA)
    (h : (p.Pop data).status = .suspended) : p.mDataList = [] ∧ p.mHasMore = true := by
  obtain ⟨xs, cap, hm⟩ := p
  cases xs with
  | nil =>
    cases hm
    · rw [Pop_nil_closed] at h; exact absurd h (by simp)
    · exact ⟨rfl, rfl⟩
  | cons front rest => rw [Pop_cons] at h; exact absurd h (by simp)

/-- One event that is neither `Clear` nor `SetHasMore(true)`, on a closed pipe with no
reader waiting: the pipe stays closed and no reader waits. -/
theorem step_closed {DATA : Type} (s : PopWaiters DATA) (e : Event DATA)
    (hClosed : s.pipe.mHasMore = false) (hWaiting : s.waiting = [])
    (hClear : e ≠ .clear) (hOpen : e ≠ .setHasMore true) :
    (s.step e).pipe.mHasMore = false ∧ (s.step e).waiting = [] := by
  obtain ⟨⟨xs, cap, hm⟩, waiting, notified⟩ := s
  simp only at hClosed hWaiting
  subst hClosed hWaiting
  cases e with
  | push data wake =>
    simp only [PopWaiters.step, PopWaiters.Push]
    cases h : Pipe.pushPred (⟨xs, cap, false⟩ : Pipe DATA)
    · rw [Push_of_not_pred _ data h]; exact ⟨rfl, rfl⟩
    · rw [Push_of_pred _ data h]; simp [notifyOne_nil]
  | pushMove data wake =>
    simp only [PopWaiters.step, PopWaiters.PushMove, PushMove_eq_Push]
    cases h : Pipe.pushPred (⟨xs, cap, false⟩ : Pipe DATA)
    · rw [Push_of_not_pred _ data h]; exact ⟨rfl, rfl⟩
    · rw [Push_of_pred _ data h]; simp [notifyOne_nil]
  | pop data =>
    simp only [PopWaiters.step, PopWaiters.Pop]
    cases xs with
    | nil => rw [Pop_nil_closed]; exact ⟨rfl, rfl⟩
    | cons front rest => rw [Pop_cons]; exact ⟨rfl, rfl⟩
  | setHasMore hasMore =>
    cases hasMore with
    | true => exact absurd rfl hOpen
    | false => exact ⟨rfl, rfl⟩
  | clear => exact absurd rfl hClear
  | resume i =>
    simp only [PopWaiters.step, PopWaiters.resume]
    cases hn : notified[i]? with
    | none => exact ⟨rfl, rfl⟩
    | some data =>
      simp only [PopFromWait_eq_Pop]
      cases xs with
      | nil => rw [Pop_nil_closed]; exact ⟨rfl, rfl⟩
      | cons front rest => rw [Pop_cons]; exact ⟨rfl, rfl⟩
  | spuriousWakeup i =>
    simp [PopWaiters.step, PopWaiters.spuriousWakeup]

theorem noReopen_cons {DATA : Type} (e : Event DATA) (es : List (Event DATA)) :
    noReopen (e :: es) = true ↔ (e ≠ .clear ∧ e ≠ .setHasMore true ∧ noReopen es = true) := by
  cases e with
  | setHasMore hasMore => cases hasMore <;> simp [noReopen]
  | _ => simp [noReopen]

/-- Any events without `Clear` and `SetHasMore(true)`, from a closed pipe with no reader
waiting: the pipe stays closed and no reader waits. -/
theorem runEvents_closed {DATA : Type} (es : List (Event DATA)) (s : PopWaiters DATA)
    (hClosed : s.pipe.mHasMore = false) (hWaiting : s.waiting = [])
    (hEs : noReopen es = true) :
    (runEvents es s).pipe.mHasMore = false ∧ (runEvents es s).waiting = [] := by
  induction es generalizing s with
  | nil => exact ⟨hClosed, hWaiting⟩
  | cons e es ih =>
    rw [noReopen_cons] at hEs
    have h := step_closed s e hClosed hWaiting hEs.1 hEs.2.1
    exact ih (s.step e) h.1 h.2 hEs.2.2

/-- A notified reader that gets the mutex back while the pipe is closed returns: `false`
from an empty buffer, `true` with the front item otherwise; it leaves the notified
readers and does not wait again. -/
theorem resume_closed {DATA : Type} (s : PopWaiters DATA) (i : Nat) (data : DATA)
    (hClosed : s.pipe.mHasMore = false) (hi : s.notified[i]? = some data) :
    s.resumeOutcome i = some (s.pipe.Pop data) ∧
    (s.pipe.Pop data).status ≠ .suspended ∧
    (s.pipe.mDataList = [] →
      s.pipe.Pop data = { status := .returned false, data := data, pipe := s.pipe }) ∧
    (∀ front rest, s.pipe.mDataList = front :: rest →
      s.pipe.Pop data = { status := .returned true, data := front,
                          pipe := { s.pipe with mDataList := rest } }) ∧
    s.resume i = { pipe := (s.pipe.Pop data).pipe, waiting := s.waiting,
                   notified := s.notified.eraseIdx i } := by
  obtain ⟨⟨xs, cap, hm⟩, waiting, notified⟩ := s
  simp only at hClosed hi
  subst hClosed
  simp only [PopWaiters.resumeOutcome, PopWaiters.resume, hi, PopFromWait_eq_Pop]
  cases xs with
  | nil => rw [Pop_nil_closed]; simp
  | cons front rest => rw [Pop_cons]; simp

/-- No missed wake-up on close, as an invariant of every event: when the pipe is closed
no reader is waiting without a notification. -/
theorem step_closed_no_waiting {DATA : Type} (s : PopWaiters DATA) (e : Event DATA)
    (hInv : s.pipe.mHasMore = false → s.waiting = []) :
    (s.step e).pipe.mHasMore = false → (s.step e).waiting = [] := by
  cases e with
  | push data wake =>
    simp only [PopWaiters.step, PopWaiters.Push]
    cases h : s.pipe.pushPred
    · rw [Push_of_not_pred _ data h]; exact hInv
    · rw [Push_of_pred _ data h]
      intro hc
      simp only at hc
      simp only [hInv hc, notifyOne_nil]
  | pushMove data wake =>
    simp only [PopWaiters.step, PopWaiters.PushMove, PushMove_eq_Push]
    cases h : s.pipe.pushPred
    · rw [Push_of_not_pred _ data h]; exact hInv
    · rw [Push_of_pred _ data h]
      intro hc
      simp only at hc
      simp only [hInv hc, notifyOne_nil]
  | pop data =>
    simp only [PopWaiters.step, PopWaiters.Pop]
    cases hst : (s.pipe.Pop data).status with
    | suspended =>
      intro hc
      simp only at hc
      rw [(Pop_suspended s.pipe data hst).2] at hc
      exact absurd hc (by simp)
    | returned result =>
      intro hc
      simp only [Pop_pipe_mHasMore] at hc
      exact hInv hc
    | undefined => exact absurd hst (Pop_status_ne_undefined s.pipe data)
  | setHasMore hasMore => intro _; rfl
  | clear => intro _; rfl
  | resume i =>
    simp only [PopWaiters.step, PopWaiters.resume]
    cases hn : s.notified[i]? with
    | none => exact hInv
    | some data =>
      simp only [PopFromWait_eq_Pop]
      cases hst : (s.pipe.Pop data).status with
      | suspended =>
        intro hc
        simp only at hc
        rw [(Pop_suspended s.pipe data hst).2] at hc
        exact absurd hc (by simp)
      | returned result =>
        intro hc
        simp only [Pop_pipe_mHasMore] at hc
        exact hInv hc
      | undefined => exact absurd hst (Pop_status_ne_undefined s.pipe data)
  | spuriousWakeup i =>
    simp only [PopWaiters.step, PopWaiters.spuriousWakeup]
    cases hw : s.waiting[i]? with
    | none => exact hInv
    | some data =>
      intro hc
      simp only at hc
      have h0 := hInv hc
      rw [h0] at hw
      simp at hw

theorem runEvents_closed_no_waiting {DATA : Type} (es : List (Event DATA))
    (s : PopWaiters DATA) (hInv : s.pipe.mHasMore = false → s.waiting = []) :
    (runEvents es s).pipe.mHasMore = false → (runEvents es s).waiting = [] := by
  induction es generalizing s with
  | nil => exact hInv
  | cons e es ih => exact ih (s.step e) (step_closed_no_waiting s e hInv)

/-! Claims -/

/-- C1 (FIFO order): for every sequence of completed `Push`, `Pop` and `SetHasMore` calls
on a freshly constructed pipe, with no `Clear`, the items handed out by the `Pop` calls
that returned `true`, followed by the items left in the buffer, are exactly the items
pushed, in push order; so the handed-out items are a prefix of the pushed items, one per
`Pop` that returned `true`, and nothing is reordered, duplicated or skipped. -/
theorem C1_fifo_order {DATA : Type} (capacity : Nat) (ops : List (Op DATA)) (p : Pipe DATA)
    (log : Log DATA) (hNoClear : noClear ops = true)
    (hRun : runOps ops (Pipe.ctor capacity, Log.empty) = some (p, log)) :
    pushedItems ops = log.popped ++ p.mDataList ∧
    log.popped <+: pushedItems ops ∧
    log.popped.length = log.returns.count true := by
  have h := runOps_fifo ops _ p _ log hRun hNoClear
  have hlen := runOps_popped_length ops _ p _ log hRun rfl
  simp only [Log.empty, Pipe.ctor, List.append_nil, List.nil_append] at h
  exact ⟨h.symm, ⟨p.mDataList, h⟩, hlen⟩

theorem C1_fifo_order_witness :
    pushedItems [Op.push (1 : Nat), .push 2, .pop 0, .setHasMore false, .push 3, .pop 0] =
      [1, 2] ++ [3] ∧
    [1, 2] <+: pushedItems
      [Op.push (1 : Nat), .push 2, .pop 0, .setHasMore false, .push 3, .pop 0] ∧
    [1, 2].length = [true, true].count true :=
  C1_fifo_order 2 [Op.push (1 : Nat), .push 2, .pop 0, .setHasMore false, .push 3, .pop 0]
    { mDataList := [3], mCapacity := 2, mHasMore := false }
    { returns := [true, true], popped := [1, 2], discarded := [] } (by decide) (by decide)

/-- C2 (capacity bound): for a pipe constructed with capacity `C > 0`, every state reached
from the initial state by a sequence of `Push`, `Pop`, `SetHasMore` and `Clear` calls that
complete (a `Push` completing only when its wait predicate holds) still has capacity `C`
and a buffer of length at most `C`. -/
theorem C2_capacity_bound {DATA : Type} (capacity : Nat) (ops : List (Op DATA))
    (p : Pipe DATA) (log : Log DATA) (hPos : 0 < capacity)
    (hRun : runOps ops (Pipe.ctor capacity, Log.empty) = some (p, log)) :
    p.mDataList.length ≤ capacity ∧ p.mCapacity = capacity :=
  ⟨runOps_length_le ops (Pipe.ctor capacity) p Log.empty log hRun hPos (Nat.zero_le _),
   runOps_capacity ops (Pipe.ctor capacity) p Log.empty log hRun⟩

theorem C2_capacity_bound_witness :
    runOps [Op.push (1 : Nat), .push 2, .pop 0, .clear, .pushMove 3, .push 4]
        (Pipe.ctor 2, Log.empty) =
      some ({ mDataList := [3, 4], mCapacity := 2, mHasMore := true },
        { returns := [true], popped := [1], discarded := [2] }) ∧
    [3, 4].length ≤ 2 ∧ 2 = 2 :=
  ⟨by decide,
   C2_capacity_bound 2 [Op.push (1 : Nat), .push 2, .pop 0, .clear, .pushMove 3, .push 4]
    { mDataList := [3, 4], mCapacity := 2, mHasMore := true }
    { returns := [true], popped := [1], discarded := [2] } (by decide) (by decide)⟩

/-- C3 (termination signal): on a pipe whose buffer is empty and whose `mHasMore` is
false, `Pop` returns `false` without suspending, leaves the caller's variable as it was
and leaves the pipe (buffer, `mHasMore`, capacity) unchanged; and any number of
consecutive `Pop` calls from that state all return `false`, leaving the pipe unchanged. -/
theorem C3_pop_termination_signal {DATA : Type} (p : Pipe DATA) (data : DATA)
    (hEmpty : p.mDataList = []) (hClosed : p.mHasMore = false) :
    p.Pop data = { status := .returned false, data := data, pipe := p } ∧
    ∀ (ds : List DATA) (log : Log DATA),
      runOps (ds.map Op.pop) (p, log) =
        some (p, { log with returns := log.returns ++ List.replicate ds.length false }) := by
  obtain ⟨xs, cap, hm⟩ := p
  simp only at hEmpty hClosed
  subst hEmpty hClosed
  exact ⟨Pop_nil_closed cap data, fun ds log => runOps_pops_nil_closed cap ds log⟩

theorem C3_pop_termination_signal_witness :
    Pipe.Pop { mDataList := [], mCapacity := 2, mHasMore := false } (5 : Nat) =
      { status := .returned false, data := 5,
        pipe := { mDataList := [], mCapacity := 2, mHasMore := false } } ∧
    runOps ([7, 8, 9].map Op.pop)
        (({ mDataList := [], mCapacity := 2, mHasMore := false } : Pipe Nat), Log.empty) =
      some ({ mDataList := [], mCapacity := 2, mHasMore := false },
        { returns := [false, false, false], popped := [], discarded := [] }) :=
  ⟨(C3_pop_termination_signal { mDataList := [], mCapacity := 2, mHasMore := false } 5
      rfl rfl).1,
   (C3_pop_termination_signal { mDataList := [], mCapacity := 2, mHasMore := false } 5
      rfl rfl).2 [7, 8, 9] Log.empty⟩

/-- C4 (Pop success): on a pipe whose buffer is non-empty, whatever `mHasMore` is, `Pop`
does not suspend and returns `true`, the caller's variable holds the former front
element, the buffer is the old buffer without its front element (one element shorter),
and `mHasMore` and the capacity are unchanged. -/
theorem C4_pop_success {DATA : Type} (p : Pipe DATA) (data : DATA)
    (hNonEmpty : p.mDataList ≠ []) :
    (p.Pop data).status = .returned true ∧
    some (p.Pop data).data = p.mDataList.head? ∧
    (p.Pop data).pipe.mDataList = p.mDataList.tail ∧
    (p.Pop data).pipe.mDataList.length + 1 = p.mDataList.length ∧
    (p.Pop data).pipe.mHasMore = p.mHasMore ∧
    (p.Pop data).pipe.mCapacity = p.mCapacity := by
  obtain ⟨xs, cap, hm⟩ := p
  cases xs with
  | nil => exact absurd rfl hNonEmpty
  | cons front rest => rw [Pop_cons]; simp

theorem C4_pop_success_witness :
    (Pipe.Pop { mDataList := [4, 5, 6], mCapacity := 3, mHasMore := false } (0 : Nat)).status
      = .returned true ∧
    (Pipe.Pop { mDataList := [4, 5, 6], mCapacity := 3, mHasMore := false } (0 : Nat)).data
      = 4 ∧
    (Pipe.Pop { mDataList := [4, 5, 6], mCapacity := 3, mHasMore := false } (0 : Nat)).pipe
      = { mDataList := [5, 6], mCapacity := 3, mHasMore := false } := by
  have h := C4_pop_success { mDataList := [4, 5, 6], mCapacity := 3, mHasMore := false }
    (0 : Nat) (by decide)
  exact ⟨h.1, by decide, by decide⟩

/-- C5 (Pop blocking condition): `Pop` suspends exactly when the buffer is empty and
`mHasMore` is true; in every other state it returns `true` or `false`; and at the point
where it is suspended the pipe (buffer, `mHasMore`, capacity) and the caller's variable
are as they were when it was called. -/
theorem C5_pop_blocking_condition {DATA : Type} (p : Pipe DATA) (data : DATA) :
    ((p.Pop data).status = .suspended ↔ (p.mDataList = [] ∧ p.mHasMore = true)) ∧
    ((∃ result, (p.Pop data).status = .returned result) ↔
      ¬ (p.mDataList = [] ∧ p.mHasMore = true)) ∧
    (p.Pop data = { status := .suspended, data := data, pipe := p } ↔
      (p.mDataList = [] ∧ p.mHasMore = true)) := by
  obtain ⟨xs, cap, hm⟩ := p
  cases xs with
  | nil =>
    cases hm
    · rw [Pop_nil_closed]; simp
    · rw [Pop_nil_open]; simp
  | cons front rest => rw [Pop_cons]; simp

/-- C6 (Push blocking condition and effect): `Push` suspends exactly when the capacity is
positive and the buffer length has reached it; in every other state it returns, the
buffer being the old buffer with the pushed item appended at the back (one element
longer, every earlier element at its old position), `mHasMore` and the capacity
unchanged. -/
theorem C6_push_blocking_and_effect {DATA : Type} (p : Pipe DATA) (data : DATA) :
    ((p.Push data).status = .suspended ↔
      (0 < p.mCapacity ∧ p.mCapacity ≤ p.mDataList.length)) ∧
    (¬ (0 < p.mCapacity ∧ p.mCapacity ≤ p.mDataList.length) →
      (p.Push data).status = .returned ∧
      (p.Push data).pipe.mDataList = p.mDataList ++ [data] ∧
      (p.Push data).pipe.mDataList.length = p.mDataList.length + 1 ∧
      (∀ i, i < p.mDataList.length →
        (p.Push data).pipe.mDataList[i]? = p.mDataList[i]?) ∧
      (p.Push data).pipe.mDataList[p.mDataList.length]? = some data ∧
      (p.Push data).pipe.mHasMore = p.mHasMore ∧
      (p.Push data).pipe.mCapacity = p.mCapacity) := by
  cases h : p.pushPred
  · have hb := (pushPred_eq_false_iff p).1 h
    rw [Push_of_not_pred p data h]
    exact ⟨by simp [hb], fun hn => absurd hb hn⟩
  · have hb : ¬ (0 < p.mCapacity ∧ p.mCapacity ≤ p.mDataList.length) := by
      rw [← pushPred_eq_false_iff, h]; simp
    rw [Push_of_pred p data h]
    refine ⟨by simp [hb], fun _ => ⟨rfl, rfl, by simp, ?_, by simp, rfl, rfl⟩⟩
    intro i hi
    simp [List.getElem?_append_left hi]

theorem C6_push_blocking_and_effect_witness :
    (Pipe.Push { mDataList := [1, 2], mCapacity := 2, mHasMore := true } (3 : Nat)).status
      = .suspended ∧
    (Pipe.Push { mDataList := [1], mCapacity := 2, mHasMore := true } (3 : Nat)).status
      = .returned ∧
    (Pipe.Push { mDataList := [1], mCapacity := 2, mHasMore := true } (3 : Nat)).pipe.mDataList
      = [1, 3] :=
  ⟨(C6_push_blocking_and_effect { mDataList := [1, 2], mCapacity := 2, mHasMore := true }
      3).1.2 (by decide),
   ((C6_push_blocking_and_effect { mDataList := [1], mCapacity := 2, mHasMore := true }
      3).2 (by decide)).1,
   ((C6_push_blocking_and_effect { mDataList := [1], mCapacity := 2, mHasMore := true }
      3).2 (by decide)).2.1⟩

/-- C7, the claim as stated fails: with one item buffered, after `SetHasMore(false)` the
calls `Pop`, `SetHasMore(true)`, `Pop` contain no further `Push` or `Clear`, yet the
second `Pop` (the one after the single buffered item) does not return `false`: it finds
the pipe empty and open again and suspends. -/
theorem C7_drain_after_close_counterexample :
    runOps [Op.pop 0, Op.setHasMore true]
        (Pipe.SetHasMore { mDataList := [4], mCapacity := 0, mHasMore := true } false,
          (Log.empty : Log Nat)) =
      some ({ mDataList := [], mCapacity := 0, mHasMore := true },
        { returns := [true], popped := [4], discarded := [] }) ∧
    (Pipe.Pop { mDataList := [], mCapacity := 0, mHasMore := true } (0 : Nat)).status =
      .suspended ∧
    runOps [Op.pop 0, Op.setHasMore true, Op.pop 0]
        (Pipe.SetHasMore { mDataList := [4], mCapacity := 0, mHasMore := true } false,
          (Log.empty : Log Nat)) = none := by
  decide

/-- C7 (drain after close, amended): from any state with `n` buffered items, after
`SetHasMore(false)` and with no further `Push`, `Clear` or `SetHasMore(true)` (only `Pop`
and `SetHasMore(false)` calls follow, in any order), every call completes and the pipe
stays closed; the first `n` `Pop` calls return `true` and hand out the buffered items in
buffer order, and every later `Pop` returns `false`. In particular, once at least `n`
`Pop` calls have been made the buffer is empty and exactly `n` of them have returned
`true`. -/
theorem C7_drain_after_close_amended {DATA : Type} (p : Pipe DATA) (ops : List (Op DATA))
    (log : Log DATA) (hOps : noPushClearReopen ops = true) :
    runOps ops (p.SetHasMore false, log) =
      some ({ mDataList := p.mDataList.drop (popCalls ops), mCapacity := p.mCapacity,
              mHasMore := false },
        { returns := log.returns ++
            (List.replicate (min (popCalls ops) p.mDataList.length) true ++
              List.replicate (popCalls ops - p.mDataList.length) false),
          popped := log.popped ++ p.mDataList.take (popCalls ops),
          discarded := log.discarded }) ∧
    (p.mDataList.length ≤ popCalls ops →
      runOps ops (p.SetHasMore false, log) =
        some ({ mDataList := [], mCapacity := p.mCapacity, mHasMore := false },
          { returns := log.returns ++ (List.replicate p.mDataList.length true ++
              List.replicate (popCalls ops - p.mDataList.length) false),
            popped := log.popped ++ p.mDataList,
            discarded := log.discarded })) := by
  have h := runOps_drain_closed p.mDataList p.mCapacity ops log hOps
  refine ⟨h, fun hle => ?_⟩
  rw [show p.SetHasMore false =
    { mDataList := p.mDataList, mCapacity := p.mCapacity, mHasMore := false } from rfl, h,
    List.drop_of_length_le hle, List.take_of_length_le hle, Nat.min_eq_right hle]

theorem C7_drain_after_close_amended_witness :
    runOps [Op.pop 0, Op.setHasMore false, Op.pop 0, Op.pop 0, Op.pop 0]
        (Pipe.SetHasMore { mDataList := [4, 5], mCapacity := 3, mHasMore := true } false,
          Log.empty) =
      some ({ mDataList := [], mCapacity := 3, mHasMore := false },
        { returns := [] ++ (List.replicate 2 true ++ List.replicate (4 - 2) false),
          popped := [] ++ [4, 5],
          discarded := [] }) :=
  (C7_drain_after_close_amended { mDataList := [4, 5], mCapacity := 3, mHasMore := true }
    [Op.pop 0, Op.setHasMore false, Op.pop 0, Op.pop 0, Op.pop 0] Log.empty (by decide)).2
    (by decide)

/-- C8, the claim as stated fails: after the single completed call `Push(7)` on a fresh
pipe, no `Pop` has returned `true` and nothing has been discarded, yet one item has been
pushed (it is still in the buffer). -/
theorem C8_no_lost_items_counterexample :
    ∃ (p : Pipe Nat) (log : Log Nat),
      runOps [Op.push 7] (Pipe.ctor 0, Log.empty) = some (p, log) ∧
      log.returns.count true + log.discarded.length ≠ (pushedItems [Op.push 7]).length :=
  ⟨{ mDataList := [7], mCapacity := 0, mHasMore := true },
   { returns := [], popped := [], discarded := [] }, by decide, by decide⟩

/-- C8 (no lost items, amended): for every sequence of completed `Push`, `Pop`,
`SetHasMore` and `Clear` calls on a fresh pipe, the number of `Pop` calls that returned
`true`, plus the number of items discarded by `Clear`, plus the number of items still in
the buffer at the end, equals the number of items pushed. -/
theorem C8_no_lost_items_amended {DATA : Type} (capacity : Nat) (ops : List (Op DATA))
    (p : Pipe DATA) (log : Log DATA)
    (hRun : runOps ops (Pipe.ctor capacity, Log.empty) = some (p, log)) :
    log.returns.count true + log.discarded.length + p.mDataList.length =
      (pushedItems ops).length := by
  have h := runOps_count ops _ p _ log hRun
  simpa [Log.empty, Pipe.ctor] using h

theorem C8_no_lost_items_amended_witness :
    [true, false].count true + [2, 3].length + [4].length =
      (pushedItems [Op.push (1 : Nat), .push 2, .push 3, .pop 0, .clear, .setHasMore false,
        .pop 0, .pushMove 4]).length :=
  C8_no_lost_items_amended 3
    [Op.push (1 : Nat), .push 2, .push 3, .pop 0, .clear, .setHasMore false, .pop 0,
      .pushMove 4]
    { mDataList := [4], mCapacity := 3, mHasMore := false }
    { returns := [true, false], popped := [1], discarded := [2, 3] } (by decide)

/-- C9 (Clear resets to the initial state): from any state, `Clear` yields exactly the
state of a freshly constructed pipe of the same capacity (empty buffer, `mHasMore` true,
capacity unchanged); `Clear` twice is the same as `Clear` once; and the items a `Clear`
call discards are exactly the items that were buffered. -/
theorem C9_clear_resets {DATA : Type} (p : Pipe DATA) (log : Log DATA) :
    p.Clear = Pipe.ctor p.mCapacity ∧
    p.Clear.mDataList = [] ∧ p.Clear.mHasMore = true ∧ p.Clear.mCapacity = p.mCapacity ∧
    p.Clear.Clear = p.Clear ∧
    stepOp .clear (p, log) =
      some (Pipe.ctor p.mCapacity, { log with discarded := log.discarded ++ p.mDataList }) :=
  ⟨rfl, rfl, rfl, rfl, rfl, rfl⟩

/-- C10 (Clear re-opens for readers): from any state, closed and empty included, a `Pop`
right after `Clear` suspends instead of returning `false`, with the pipe and the caller's
variable untouched; and a `Pop` after `Clear` followed by `SetHasMore(false)` returns
`false` without suspending. -/
theorem C10_clear_reopens {DATA : Type} (p : Pipe DATA) (data : DATA) :
    p.Clear.Pop data = { status := .suspended, data := data, pipe := p.Clear } ∧
    (p.Clear.Pop data).status ≠ .returned false ∧
    (p.Clear.SetHasMore false).Pop data =
      { status := .returned false, data := data, pipe := p.Clear.SetHasMore false } := by
  have h1 : p.Clear.Pop data = { status := .suspended, data := data, pipe := p.Clear } :=
    Pop_nil_open p.mCapacity data
  refine ⟨h1, ?_, Pop_nil_closed p.mCapacity data⟩
  rw [h1]
  simp

/-- C11, the claim as stated fails: `SetHasMore(true)` on a closed pipe completes, turns
`mHasMore` from false to true, and is not a `Clear`. -/
theorem C11_reopen_only_by_clear_counterexample :
    ∃ (p' : Pipe Nat) (log' : Log Nat),
      stepOp (Op.setHasMore true)
        ({ mDataList := [], mCapacity := 0, mHasMore := false }, Log.empty) =
          some (p', log') ∧
      p'.mHasMore = true ∧ (Op.setHasMore true : Op Nat) ≠ Op.clear :=
  ⟨{ mDataList := [], mCapacity := 0, mHasMore := true }, Log.empty,
    by decide, by decide, by decide⟩

/-- C11 (re-opening, amended): every completed call that finds `mHasMore` false and leaves
it true is a `Clear` or a `SetHasMore(true)`, and both of these do leave it true; `Push`
(either overload) and `Pop` never change `mHasMore`, in any state, whether they return or
suspend, and so neither does a completed `Push` or `Pop` step of a run. -/
theorem C11_reopen_amended {DATA : Type} (op : Op DATA) (p p' : Pipe DATA)
    (log log' : Log DATA) :
    (stepOp op (p, log) = some (p', log') → p.mHasMore = false → p'.mHasMore = true →
      (op = .clear ∨ op = .setHasMore true)) ∧
    p.Clear.mHasMore = true ∧ (p.SetHasMore true).mHasMore = true ∧
    (∀ data, (p.Push data).pipe.mHasMore = p.mHasMore ∧
      (p.PushMove data).pipe.mHasMore = p.mHasMore ∧
      (p.Pop data).pipe.mHasMore = p.mHasMore) ∧
    (stepOp op (p, log) = some (p', log') →
      (∃ data, op = .push data ∨ op = .pushMove data ∨ op = .pop data) →
      p'.mHasMore = p.mHasMore) := by
  refine ⟨?_, rfl, rfl, fun data => ⟨?_, ?_, ?_⟩, ?_⟩
  · intro hStep hClosed hOpen
    rcases stepOp_eq_some op p p' log log' hStep with
      ⟨d, -, -, hp, -⟩ | ⟨d, x, -, -, -, hm, -⟩ | ⟨d, -, -, -, hp, -⟩ | ⟨b, hb, hp, -⟩ |
      ⟨hc, -, -⟩
    · rw [hp] at hOpen; simp only at hOpen; rw [hClosed] at hOpen; exact absurd hOpen (by simp)
    · rw [hm, hClosed] at hOpen; exact absurd hOpen (by simp)
    · rw [hp, hClosed] at hOpen; exact absurd hOpen (by simp)
    · rw [hp] at hOpen
      simp only [Pipe.SetHasMore] at hOpen
      rw [hb, hOpen]
      exact Or.inr rfl
    · exact Or.inl hc
  · cases h : p.pushPred <;> simp [Pipe.Push, h]
  · cases h : p.pushPred <;> simp [Pipe.PushMove, h]
  · obtain ⟨xs, cap, hm⟩ := p
    cases xs with
    | nil =>
      cases hm
      · rw [Pop_nil_closed]
      · rw [Pop_nil_open]
    | cons front rest => rw [Pop_cons]
  · intro hStep hop
    rcases stepOp_eq_some op p p' log log' hStep with
      ⟨d, -, -, hp, -⟩ | ⟨d, x, -, -, -, hm, -⟩ | ⟨d, -, -, -, hp, -⟩ | ⟨b, hb, -, -⟩ |
      ⟨hc, -, -⟩
    · rw [hp]
    · exact hm
    · rw [hp]
    · obtain ⟨data, h | h | h⟩ := hop <;> rw [hb] at h <;> exact absurd h (by simp)
    · obtain ⟨data, h | h | h⟩ := hop <;> rw [hc] at h <;> exact absurd h (by simp)

theorem C11_reopen_amended_witness :
    ((Op.setHasMore true : Op Nat) = .clear ∨
      (Op.setHasMore true : Op Nat) = .setHasMore true) ∧
    (({ mDataList := [2], mCapacity := 1, mHasMore := true } : Pipe Nat)).mHasMore = true :=
  ⟨(C11_reopen_amended (Op.setHasMore true)
      { mDataList := [1], mCapacity := 1, mHasMore := false }
      { mDataList := [1], mCapacity := 1, mHasMore := true } Log.empty Log.empty).1
      (by decide) (by decide) (by decide),
   (C11_reopen_amended (Op.pop (0 : Nat))
      { mDataList := [1, 2], mCapacity := 1, mHasMore := true }
      { mDataList := [2], mCapacity := 1, mHasMore := true } Log.empty
      { returns := [true], popped := [1], discarded := [] }).2.2.2.2
      (by decide) ⟨0, Or.inr (Or.inr rfl)⟩⟩

/-- C13 (Push after close is permitted): two states that differ only in `mHasMore` give
`Push` the same status and the same resulting buffer; `Push` leaves `mHasMore` as it was;
and on a closed, empty pipe `Push(x)` returns, after which the next `Pop` returns `true`
with `x`, where it would have returned `false` before the `Push`. -/
theorem C13_push_after_close {DATA : Type} (xs : List DATA) (cap : Nat) (hm hm' : Bool)
    (x data : DATA) (log : Log DATA) :
    (Pipe.Push { mDataList := xs, mCapacity := cap, mHasMore := hm } x).status =
      (Pipe.Push { mDataList := xs, mCapacity := cap, mHasMore := hm' } x).status ∧
    (Pipe.Push { mDataList := xs, mCapacity := cap, mHasMore := hm } x).pipe.mDataList =
      (Pipe.Push { mDataList := xs, mCapacity := cap, mHasMore := hm' } x).pipe.mDataList ∧
    (Pipe.Push { mDataList := xs, mCapacity := cap, mHasMore := hm } x).pipe.mHasMore = hm ∧
    Pipe.Push { mDataList := [], mCapacity := cap, mHasMore := false } x =
      { status := .returned,
        pipe := { mDataList := [x], mCapacity := cap, mHasMore := false } } ∧
    Pipe.Pop (Pipe.Push { mDataList := [], mCapacity := cap, mHasMore := false } x).pipe data =
      { status := .returned true, data := x,
        pipe := { mDataList := [], mCapacity := cap, mHasMore := false } } ∧
    Pipe.Pop { mDataList := [], mCapacity := cap, mHasMore := false } data =
      { status := .returned false, data := data,
        pipe := { mDataList := [], mCapacity := cap, mHasMore := false } } ∧
    runOps [Op.push x, Op.pop data]
        ({ mDataList := [], mCapacity := cap, mHasMore := false }, log) =
      some ({ mDataList := [], mCapacity := cap, mHasMore := false },
        { log with returns := log.returns ++ [true], popped := log.popped ++ [x] }) := by
  have hpred : ∀ b b' : Bool,
      Pipe.pushPred ({ mDataList := xs, mCapacity := cap, mHasMore := b } : Pipe DATA) =
        Pipe.pushPred ({ mDataList := xs, mCapacity := cap, mHasMore := b' } : Pipe DATA) :=
    fun _ _ => rfl
  have hnil : Pipe.pushPred
      ({ mDataList := [], mCapacity := cap, mHasMore := false } : Pipe DATA) = true := by
    rw [pushPred_eq_true_iff]
    simp only [List.length_nil]
    omega
  have hpush : Pipe.Push { mDataList := [], mCapacity := cap, mHasMore := false } x =
      { status := .returned,
        pipe := { mDataList := [x], mCapacity := cap, mHasMore := false } } := by
    rw [Push_of_pred _ x hnil]
    simp
  refine ⟨?_, ?_, ?_, hpush, ?_, Pop_nil_closed cap data, ?_⟩
  · simp only [Pipe.Push, hpred hm hm']
    split <;> rfl
  · simp only [Pipe.Push, hpred hm hm']
    split <;> rfl
  · simp only [Pipe.Push]
    split <;> rfl
  · rw [hpush]
    exact Pop_cons x [] cap false data
  · simp only [runOps_cons, stepOp_push, hnil, if_true, Option.some_bind, List.nil_append,
      stepOp_pop_cons, runOps]

/-- C14 (backpressure scenario): for every capacity `C > 0` and items `xs` (`C` of them)
and `y`, on a fresh pipe the `C` calls `Push` of `xs` complete without suspending and the
next `Push(y)` suspends; one `Pop` then returns `true` with the first item of `xs` and
leaves a state in which `Push(y)` completes; the following `C` `Pop` calls return `true`
with the rest of `xs` in order and then `y`; and after `SetHasMore(false)` the next `Pop`
returns `false`. -/
theorem C14_backpressure_scenario {DATA : Type} (C : Nat) (xs : List DATA) (y d d' : DATA)
    (ds : List DATA) (hPos : 0 < C) (hLen : xs.length = C) (hDs : ds.length = C) :
    runOps (xs.map Op.push) (Pipe.ctor C, Log.empty) =
      some ({ mDataList := xs, mCapacity := C, mHasMore := true }, Log.empty) ∧
    Pipe.Push { mDataList := xs, mCapacity := C, mHasMore := true } y =
      { status := .suspended, pipe := { mDataList := xs, mCapacity := C, mHasMore := true } } ∧
    runOps (xs.map Op.push ++ [Op.push y]) (Pipe.ctor C, Log.empty) = none ∧
    (Pipe.Pop { mDataList := xs, mCapacity := C, mHasMore := true } d).status =
      .returned true ∧
    some (Pipe.Pop { mDataList := xs, mCapacity := C, mHasMore := true } d).data = xs.head? ∧
    Pipe.Push (Pipe.Pop { mDataList := xs, mCapacity := C, mHasMore := true } d).pipe y =
      { status := .returned,
        pipe := { mDataList := xs.tail ++ [y], mCapacity := C, mHasMore := true } } ∧
    runOps (xs.map Op.push ++ Op.pop d :: Op.push y ::
        (ds.map Op.pop ++ [Op.setHasMore false, Op.pop d'])) (Pipe.ctor C, Log.empty) =
      some ({ mDataList := [], mCapacity := C, mHasMore := false },
        { returns := List.replicate (C + 1) true ++ [false],
          popped := xs ++ [y],
          discarded := [] }) := by
  subst hLen
  cases xs with
  | nil => exact absurd hPos (by simp)
  | cons x rest =>
    simp only [List.length_cons] at hDs ⊢
    have hfill : runOps ((x :: rest).map Op.push) (Pipe.ctor (rest.length + 1), Log.empty) =
        some (⟨x :: rest, rest.length + 1, true⟩, Log.empty) := by
      have h := runOps_pushes [] (x :: rest) (rest.length + 1) true Log.empty
        (Or.inr (by simp))
      simpa [Pipe.ctor] using h
    have hfull : Pipe.pushPred (⟨x :: rest, rest.length + 1, true⟩ : Pipe DATA) = false := by
      rw [pushPred_eq_false_iff]
      simp
    have hroom : Pipe.pushPred (⟨rest, rest.length + 1, true⟩ : Pipe DATA) = true := by
      rw [pushPred_eq_true_iff]
      simp
    have hpops := runOps_pops_avail (rest ++ [y]) (rest.length + 1) true ds
      { returns := [true], popped := [x], discarded := [] } (by simp [hDs])
    have hdrop : (rest ++ [y]).drop ds.length = [] :=
      List.drop_of_length_le (by simp [hDs])
    have htake : (rest ++ [y]).take ds.length = rest ++ [y] :=
      List.take_of_length_le (by simp [hDs])
    rw [hdrop, htake] at hpops
    refine ⟨hfill, Push_of_not_pred _ y hfull, ?_, ?_, ?_, ?_, ?_⟩
    · rw [runOps_append, hfill]
      simp only [Option.some_bind, runOps_cons, stepOp_push, hfull]
      rfl
    · rw [Pop_cons]
    · rw [Pop_cons]; rfl
    · rw [Pop_cons, Push_of_pred _ y hroom]; rfl
    · rw [runOps_append, hfill]
      simp only [Option.some_bind, runOps_cons, stepOp_pop_cons, stepOp_push, hroom, if_true,
        Log.empty, List.nil_append]
      rw [runOps_append, hpops]
      simp only [Option.some_bind, runOps_cons, stepOp, Pipe.SetHasMore, Pop_nil_closed, runOps,
        hDs, List.replicate_succ, List.cons_append, List.nil_append, List.append_assoc]

theorem C14_backpressure_scenario_witness :
    runOps (['A', 'B'].map Op.push ++ Op.pop ' ' :: Op.push 'C' ::
        ([' ', ' '].map Op.pop ++ [Op.setHasMore false, Op.pop ' '])) (Pipe.ctor 2, Log.empty) =
      some ({ mDataList := [], mCapacity := 2, mHasMore := false },
        { returns := List.replicate (2 + 1) true ++ [false],
          popped := ['A', 'B'] ++ ['C'],
          discarded := [] }) :=
  (C14_backpressure_scenario 2 ['A', 'B'] 'C' ' ' ' ' [' ', ' ']
    (by decide) rfl rfl).2.2.2.2.2.2

/-- C15, the claim as stated fails: a reader calls `Pop` on a fresh pipe and blocks;
`SetHasMore(false)` is called while it is blocked and the buffer is empty; a
`SetHasMore(true)` takes the mutex before the notified reader does; when the reader then
goes on, its wait predicate is false again and it waits again instead of returning
`false`. -/
theorem C15_close_releases_blocked_readers_counterexample :
    runEvents [Event.pop 7] (PopWaiters.ctor 0 : PopWaiters Nat) =
      { pipe := { mDataList := [], mCapacity := 0, mHasMore := true },
        waiting := [7], notified := [] } ∧
    (runEvents [Event.pop 7, .setHasMore false, .setHasMore true]
        (PopWaiters.ctor 0 : PopWaiters Nat)).resumeOutcome 0 =
      some { status := .suspended, data := 7,
             pipe := { mDataList := [], mCapacity := 0, mHasMore := true } } ∧
    runEvents [Event.pop 7, .setHasMore false, .setHasMore true, .resume 0]
        (PopWaiters.ctor 0 : PopWaiters Nat) =
      { pipe := { mDataList := [], mCapacity := 0, mHasMore := true },
        waiting := [7], notified := [] } := by
  decide

/-- C15 (release of blocked readers on close, amended): a reader whose `Pop` finds the
pipe empty and open waits on `mPopCv`. `SetHasMore(false)` notifies every waiting reader.
After it, whatever the threads do in whatever order (further `Push`, `Pop` and
`SetHasMore(false)` calls, notified readers going on, spurious wake-ups), as long as no
`Clear` and no `SetHasMore(true)` is executed, the pipe stays closed, no reader is waiting
without a notification, and every notified reader that gets the mutex returns without
waiting again: `false`, its variable and the pipe untouched, if it finds the buffer
empty, `true` with the front item otherwise. And no wake-up is missed on close: in every
state reached from a fresh pipe by any events at all, if the pipe is closed no reader is
waiting without a notification. -/
theorem C15_close_releases_blocked_readers_amended {DATA : Type} (s : PopWaiters DATA)
    (es : List (Event DATA)) (hNoReopen : noReopen es = true) :
    (s.pipe.mDataList = [] → s.pipe.mHasMore = true →
      ∀ data, s.Pop data = { s with waiting := s.waiting ++ [data] }) ∧
    (s.SetHasMore false).waiting = [] ∧
    (s.SetHasMore false).notified = s.notified ++ s.waiting ∧
    (runEvents es (s.SetHasMore false)).pipe.mHasMore = false ∧
    (runEvents es (s.SetHasMore false)).waiting = [] ∧
    (∀ i data, (runEvents es (s.SetHasMore false)).notified[i]? = some data →
      (∀ o, (runEvents es (s.SetHasMore false)).resumeOutcome i = some o →
        o.status ≠ .suspended) ∧
      ((runEvents es (s.SetHasMore false)).pipe.mDataList = [] →
        (runEvents es (s.SetHasMore false)).resumeOutcome i =
          some { status := .returned false, data := data,
                 pipe := (runEvents es (s.SetHasMore false)).pipe }) ∧
      (∀ front rest, (runEvents es (s.SetHasMore false)).pipe.mDataList = front :: rest →
        (runEvents es (s.SetHasMore false)).resumeOutcome i =
          some { status := .returned true, data := front,
                 pipe := { (runEvents es (s.SetHasMore false)).pipe with
                           mDataList := rest } }) ∧
      ((runEvents es (s.SetHasMore false)).resume i).waiting = [] ∧
      ((runEvents es (s.SetHasMore false)).resume i).notified =
        (runEvents es (s.SetHasMore false)).notified.eraseIdx i ∧
      ((runEvents es (s.SetHasMore false)).resume i).pipe.mHasMore = false) ∧
    (∀ (capacity : Nat) (es0 : List (Event DATA)),
      (runEvents es0 (PopWaiters.ctor capacity)).pipe.mHasMore = false →
      (runEvents es0 (PopWaiters.ctor capacity)).waiting = []) := by
  have hrun := runEvents_closed es (s.SetHasMore false) rfl rfl hNoReopen
  refine ⟨?_, rfl, rfl, hrun.1, hrun.2, ?_, ?_⟩
  · intro hnil hopen data
    obtain ⟨⟨xs, cap, hm⟩, waiting, notified⟩ := s
    simp only at hnil hopen
    subst hnil hopen
    simp [PopWaiters.Pop, Pop_nil_open]
  · intro i data hi
    obtain ⟨hout, hns, hnil, hcons, hres⟩ :=
      resume_closed (runEvents es (s.SetHasMore false)) i data hrun.1 hi
    refine ⟨?_, ?_, ?_, ?_, ?_, ?_⟩
    · intro o ho
      rw [hout] at ho
      simp only [Option.some.injEq] at ho
      rw [← ho]
      exact hns
    · intro h
      rw [hout, hnil h]
    · intro front rest h
      rw [hout, hcons front rest h]
    · rw [hres]; exact hrun.2
    · rw [hres]
    · rw [hres]
      simp only [Pop_pipe_mHasMore]
      exact hrun.1
  · intro capacity es0
    exact runEvents_closed_no_waiting es0 (PopWaiters.ctor capacity) (fun _ => rfl)

theorem C15_close_releases_blocked_readers_amended_witness :
    (runEvents [Event.push 9 0, .resume 1, .pop 5, .spuriousWakeup 0, .setHasMore false]
        (PopWaiters.SetHasMore
          { pipe := { mDataList := [], mCapacity := 3, mHasMore := true },
            waiting := [1, 2], notified := [0] } false)).resumeOutcome 1 =
      some (⟨.returned false, 2, ⟨[], 3, false⟩⟩ : PopOutcome Nat) :=
  ((C15_close_releases_blocked_readers_amended
    { pipe := { mDataList := [], mCapacity := 3, mHasMore := true },
      waiting := [1, 2], notified := [0] }
    [Event.push 9 0, .resume 1, .pop 5, .spuriousWakeup 0, .setHasMore false]
    (by decide)).2.2.2.2.2.1 1 2 (by decide)).2.1 (by decide)

/-- C16 (the two `Push` overloads agree): for every state and item, `Push(DATA&&)` and
`Push(const DATA&)` have the same outcome: they suspend in the same states and leave the
same buffer, `mHasMore` and capacity; as calls of a run they are interchangeable. -/
theorem C16_push_overloads_agree {DATA : Type} (p : Pipe DATA) (data : DATA)
    (log : Log DATA) :
    p.PushMove data = p.Push data ∧
    ((p.PushMove data).status = .suspended ↔ (p.Push data).status = .suspended) ∧
    (p.PushMove data).pipe.mDataList = (p.Push data).pipe.mDataList ∧
    (p.PushMove data).pipe.mHasMore = (p.Push data).pipe.mHasMore ∧
    (p.PushMove data).pipe.mCapacity = (p.Push data).pipe.mCapacity ∧
    stepOp (.pushMove data) (p, log) = stepOp (.push data) (p, log) := by
  have h : p.PushMove data = p.Push data := by
    unfold Pipe.PushMove Pipe.Push
    rfl
  rw [h]
  exact ⟨rfl, Iff.rfl, rfl, rfl, rfl, stepOp_pushMove p log data⟩

/-- C17 (SetHasMore frame): for every state and both argument values, `SetHasMore(v)` sets
`mHasMore` to `v` and leaves the buffer (contents and order) and the capacity unchanged;
and `SetHasMore(a)` followed by `SetHasMore(b)` gives the same state as `SetHasMore(b)`. -/
theorem C17_setHasMore_frame {DATA : Type} (p : Pipe DATA) (a b : Bool) :
    (p.SetHasMore b).mHasMore = b ∧
    (p.SetHasMore b).mDataList = p.mDataList ∧
    (p.SetHasMore b).mCapacity = p.mCapacity ∧
    (p.SetHasMore a).SetHasMore b = p.SetHasMore b := by
  simp [Pipe.SetHasMore]

/-- C18 (redundancy of the early exit of `Pop`): for every state and caller's variable,
`Pop` as written and `Pop` without its first check have the same outcome: the same status
(so they suspend in exactly the same states and return the same result), the same output
item and the same resulting pipe. -/
theorem C18_pop_early_exit_redundant {DATA : Type} (p : Pipe DATA) (data : DATA) :
    p.Pop data = p.PopWithoutFirstCheck data ∧
    ((p.Pop data).status = .suspended ↔ (p.PopWithoutFirstCheck data).status = .suspended) ∧
    (p.Pop data).status = (p.PopWithoutFirstCheck data).status ∧
    (p.Pop data).data = (p.PopWithoutFirstCheck data).data ∧
    (p.Pop data).pipe = (p.PopWithoutFirstCheck data).pipe := by
  have h : p.Pop data = p.PopWithoutFirstCheck data := by
    obtain ⟨xs, cap, hm⟩ := p
    cases xs <;> cases hm <;>
      simp [Pipe.Pop, Pipe.PopFromWait, Pipe.PopAfterWait, Pipe.popPred,
        Pipe.PopWithoutFirstCheck]
  rw [h]
  exact ⟨rfl, Iff.rfl, rfl, rfl, rfl⟩

end ThreadPipe
